import Mathlib

/-!
Verification of the foxess-monitor core algorithms against their
natural-language specification.

The embedding models the Python source of `src/app.py`:
floating-point numbers are modelled as exact rationals, Python's
`round(x, 3)` as decimal rounding with ties to even, dictionaries with
possibly-missing keys as structures of `Option` fields, and code that can
raise an exception as functions into `Option` / `Except`.
-/

namespace Foxess

/-! ### Rounding (Python `round(x, 3)`) -/

/-- Integer rounding with ties to even, the semantics of Python's builtin
`round` on which the source relies for 3-decimal rounding. -/
def roundHalfEven (q : ℚ) : ℤ :=
  if q - ⌊q⌋ = 1/2 then (if Even ⌊q⌋ then ⌊q⌋ else ⌊q⌋ + 1) else round q

/-- Rounding to 3 decimal places: the operation `round(x, 3)` applied by the
source to every published energy value. -/
def round3 (q : ℚ) : ℚ := (roundHalfEven (q * 1000) : ℚ) / 1000

/-- A rational that is an integer multiple of one thousandth, i.e. a value
already rounded to 3 decimal places (the form every `EnergyTotals` entry has,
since the source builds them with `round(total_kwh, 3)`). -/
def Milli (x : ℚ) : Prop := ∃ n : ℤ, x = (n : ℚ) / 1000

theorem roundHalfEven_intCast (n : ℤ) : roundHalfEven (n : ℚ) = n := by
  unfold roundHalfEven
  rw [Int.floor_intCast]
  norm_num

theorem round3_milli {x : ℚ} (hx : Milli x) : round3 x = x := by
  obtain ⟨n, rfl⟩ := hx
  unfold round3
  rw [div_mul_cancel₀ _ (by norm_num : (1000 : ℚ) ≠ 0), roundHalfEven_intCast]

theorem Milli.add {x y : ℚ} (hx : Milli x) (hy : Milli y) : Milli (x + y) := by
  obtain ⟨n, rfl⟩ := hx
  obtain ⟨m, rfl⟩ := hy
  exact ⟨n + m, by push_cast; ring⟩

theorem Milli.sub {x y : ℚ} (hx : Milli x) (hy : Milli y) : Milli (x - y) := by
  obtain ⟨n, rfl⟩ := hx
  obtain ⟨m, rfl⟩ := hy
  exact ⟨n - m, by push_cast; ring⟩

/-! ### FlowBalanceReconciler (`generate_sankey_for_date`, src/app.py lines 219-235)

The reconciliation step of `generate_sankey_for_date` reads the seven
per-channel kWh totals out of the `calculated_data` dictionary.  A missing
key raises `KeyError`, which the surrounding `except Exception` turns into
an error returned to the caller; we model the dictionary as a structure of
`Option` fields and the reconciliation as an `Except`. -/

/-- Per-channel kWh totals for one day, keyed as in `calculated_data`.
A `none` field models an absent dictionary key. -/
structure EnergyTotals where
  pvPower : Option ℚ
  loadPower : Option ℚ
  feedinPower : Option ℚ
  gridConsumptionPower : Option ℚ
  dischargePower : Option ℚ
  chargePower : Option ℚ
  outputPower : Option ℚ
deriving DecidableEq

/-- The reconciled flow values the source stores back into
`calculated_data` for the diagram. -/
structure FlowSet where
  pvPower : ℚ
  pvAutoConsume : ℚ
  calculatedLoad : ℚ
  pvWaste : ℚ
  gridWaste : ℚ
  deltaLoad : ℚ
deriving DecidableEq

/-- Error raised when a required channel is absent from the totals. -/
inductive ReconcileError where
  | missingChannel
deriving DecidableEq

/-- Waste calculation of `generate_sankey_for_date` (src/app.py lines
219-235), translated statement by statement.  Note that the source stores
`round(pv_power, 3)` back into the dictionary *before* reading it again to
form `pv_autoconsume`, so the chain from that point on runs on the rounded
PV value. -/
def reconcile (t : EnergyTotals) : Except ReconcileError FlowSet :=
  match t.pvPower, t.dischargePower, t.chargePower, t.outputPower,
        t.loadPower, t.gridConsumptionPower, t.feedinPower with
  | some pv, some di, some ch, some op, some ld, some gc, some fi =>
    let pv_waste := pv + di - ch - op
    let grid_waste := ld - op - gc + fi
    let pv_power := pv - pv_waste + grid_waste
    let pv_rounded := round3 pv_power
    let pv_autoconsume := pv_rounded - ch - fi
    let calculated_load := pv_autoconsume + di + gc
    let delta_load := calculated_load - ld
    .ok ⟨pv_rounded, round3 pv_autoconsume, round3 calculated_load,
         round3 pv_waste, round3 grid_waste, round3 delta_load⟩
  | _, _, _, _, _, _, _ => .error .missingChannel

/-! ### Claims C1, C8, C10 -/

/-- C1: for every `EnergyTotals` input carrying all seven required channels
(each value being a 3-decimal quantity, as the source produces them with
`round(total_kwh, 3)`), reconciliation computes, chaining each step on the
previous step's output, `pv_waste = PV_raw + Discharge - Charge - Output`,
`grid_waste = Load - Output - GridConsumption + FeedIn`,
`PV_corrected = PV_raw - pv_waste + grid_waste`,
`pv_autoconsume = PV_corrected - Charge - FeedIn`,
`calc_load = pv_autoconsume + Discharge + GridConsumption` and
`delta_load = calc_load - Load`, every output rounded to 3 decimal places
(on such inputs the rounding is exact). -/
theorem reconcile_chain (pv ld fi gc di ch op : ℚ)
    (hpv : Milli pv) (hld : Milli ld) (hfi : Milli fi) (hgc : Milli gc)
    (hdi : Milli di) (hch : Milli ch) (hop : Milli op) :
    reconcile ⟨some pv, some ld, some fi, some gc, some di, some ch, some op⟩ =
      .ok { pvPower := pv - (pv + di - ch - op) + (ld - op - gc + fi)
            pvAutoConsume :=
              (pv - (pv + di - ch - op) + (ld - op - gc + fi)) - ch - fi
            calculatedLoad :=
              ((pv - (pv + di - ch - op) + (ld - op - gc + fi)) - ch - fi)
                + di + gc
            pvWaste := pv + di - ch - op
            gridWaste := ld - op - gc + fi
            deltaLoad :=
              (((pv - (pv + di - ch - op) + (ld - op - gc + fi)) - ch - fi)
                + di + gc) - ld } := by
  have hpvw : Milli (pv + di - ch - op) := ((hpv.add hdi).sub hch).sub hop
  have hgw : Milli (ld - op - gc + fi) := ((hld.sub hop).sub hgc).add hfi
  have hpvc : Milli (pv - (pv + di - ch - op) + (ld - op - gc + fi)) :=
    (hpv.sub hpvw).add hgw
  have hauto : Milli ((pv - (pv + di - ch - op) + (ld - op - gc + fi)) - ch - fi) :=
    (hpvc.sub hch).sub hfi
  have hcalc : Milli (((pv - (pv + di - ch - op) + (ld - op - gc + fi)) - ch - fi) + di + gc) :=
    (hauto.add hdi).add hgc
  have hdelta : Milli ((((pv - (pv + di - ch - op) + (ld - op - gc + fi)) - ch - fi) + di + gc) - ld) :=
    hcalc.sub hld
  show Except.ok _ = _
  rw [round3_milli hpvc]
  rw [round3_milli hauto, round3_milli hcalc, round3_milli hpvw,
    round3_milli hgw, round3_milli hdelta]

/-- Witness for C1: the worked example of the specification,
`PV_raw=10, Discharge=2, Charge=1, Output=9, Load=8, GridConsumption=3,
FeedIn=1` yields `PV_corrected=5, pv_autoconsume=3, calc_load=8,
pv_waste=2, grid_waste=-3, delta_load=0`. -/
theorem reconcile_chain_witness :
    reconcile ⟨some 10, some 8, some 1, some 3, some 2, some 1, some 9⟩ =
      .ok ⟨5, 3, 8, 2, -3, 0⟩ := by
  rw [reconcile_chain 10 8 1 3 2 1 9
    ⟨10000, by norm_num⟩ ⟨8000, by norm_num⟩ ⟨1000, by norm_num⟩
    ⟨3000, by norm_num⟩ ⟨2000, by norm_num⟩ ⟨1000, by norm_num⟩
    ⟨9000, by norm_num⟩]
  norm_num

/-- C8: whenever at least one of the seven required channels is absent from
the totals, reconciliation fails with the missing-channel error; it never
returns a reconciled `FlowSet`. -/
theorem reconcile_missing_channel (t : EnergyTotals)
    (h : t.pvPower = none ∨ t.loadPower = none ∨ t.feedinPower = none ∨
         t.gridConsumptionPower = none ∨ t.dischargePower = none ∨
         t.chargePower = none ∨ t.outputPower = none) :
    reconcile t = .error .missingChannel := by
  obtain ⟨pv, ld, fi, gc, di, ch, op⟩ := t
  cases pv <;> cases ld <;> cases fi <;> cases gc <;> cases di <;>
    cases ch <;> cases op <;> simp_all [reconcile]

/-- Witness for C8: dropping the PV channel alone already makes
reconciliation fail with the missing-channel error. -/
theorem reconcile_missing_channel_witness :
    reconcile ⟨none, some 8, some 1, some 3, some 2, some 1, some 9⟩ =
      .error .missingChannel :=
  reconcile_missing_channel _ (Or.inl rfl)

/-- C10: the intermediate `PV_corrected` value is rounded to 3 decimal
places before later steps consume it: for every complete input the
published `pv_autoconsume` equals `round3 (round3 PV_corrected - Charge -
FeedIn)` and `calc_load` chains on `round3 PV_corrected - Charge - FeedIn`;
consequently, on the concrete input `PV_raw=0, Load=0.0006, FeedIn=0,
Grid=0, Discharge=0, Charge=-0.0002, Output=0` the published value `0`
differs from the full-precision chain rounded only at the end, which gives
`0.001`. -/
theorem reconcile_rounds_intermediate_pv :
    (∀ pv ld fi gc di ch op : ℚ,
      Except.map FlowSet.pvAutoConsume
          (reconcile ⟨some pv, some ld, some fi, some gc, some di, some ch, some op⟩) =
        .ok (round3 (round3 (pv - (pv + di - ch - op) + (ld - op - gc + fi)) - ch - fi)) ∧
      Except.map FlowSet.calculatedLoad
          (reconcile ⟨some pv, some ld, some fi, some gc, some di, some ch, some op⟩) =
        .ok (round3 ((round3 (pv - (pv + di - ch - op) + (ld - op - gc + fi)) - ch - fi) + di + gc))) ∧
    (Except.map FlowSet.pvAutoConsume
        (reconcile ⟨some 0, some (3/5000), some 0, some 0, some 0, some (-1/5000), some 0⟩) =
      .ok 0 ∧
     round3 ((0 - (0 + 0 - (-1/5000) - 0) + (3/5000 - 0 - 0 + 0)) - (-1/5000) - 0) = 1/1000 ∧
     (0 : ℚ) < 1/1000) := by
  refine ⟨fun pv ld fi gc di ch op => ⟨rfl, rfl⟩, ?_, ?_, by norm_num⟩
  · show Except.ok _ = _
    norm_num [round3, roundHalfEven, round_eq]
  · norm_num [round3, roundHalfEven, round_eq]

/-! ### PowerSeriesIntegrator (`calculate_kwh`, src/app.py lines 125-156)

An input entry carries a timestamp string and a value field.  We model the
outcome of the timestamp parse (lines 128-137, failures caught and skipped)
as an `Option` time in seconds, and the outcome of the later, *uncaught*
`float(next_point['value'])` conversion (line 153) as an `Option` rational.
The window bounds are the parsed `start_time`/`end_time` in the same
timescale. -/

/-- An element of the `power_data` list: `time` is the result of parsing the
timestamp string (`none` when `strptime`/`rsplit` fails and the entry is
skipped), `value` is the result `float(...)` would give on the value field
(`none` when that conversion would raise). -/
structure RawEntry where
  time : Option ℚ
  value : Option ℚ
deriving DecidableEq

/-- An element of `processed_data`: a parsed timestamp together with the
still-unconverted value field. -/
structure Sample where
  time : ℚ
  value : Option ℚ
deriving DecidableEq

/-- The parse step of `calculate_kwh`: keep the entry iff its timestamp
parses; the value field is carried along unexamined. -/
def toSample (e : RawEntry) : Option Sample := e.time.map (fun t => ⟨t, e.value⟩)

/-- The sort key of `processed_data.sort(key=lambda x: x['time'])`. -/
def timeLE (a b : Sample) : Prop := a.time ≤ b.time

instance : DecidableRel timeLE := fun a b => inferInstanceAs (Decidable (a.time ≤ b.time))

/-- One iteration of the integration loop (lines 150-155): when the pair is
inside the window, convert the *next* point's value with `float` (which can
fail) and weight it by the time delta in hours; otherwise contribute `0`. -/
def pairStep (startT endT : ℚ) (cur nxt : Sample) : Option ℚ :=
  if startT ≤ cur.time ∧ nxt.time ≤ endT then
    nxt.value.map (fun v => v * ((nxt.time - cur.time) / 3600))
  else some 0

/-- The integration loop over consecutive pairs of the sorted data. -/
def sumPairs (startT endT : ℚ) : List Sample → Option ℚ
  | a :: b :: rest =>
    match pairStep startT endT a b, sumPairs startT endT (b :: rest) with
    | some x, some r => some (x + r)
    | _, _ => none
  | _ => some 0

/-- The whole of `calculate_kwh`: parse, return `0.0` when nothing parsed,
sort ascending by timestamp, then integrate consecutive pairs.  A `none`
result models an uncaught exception escaping the function. -/
def calculate_kwh (powerData : List RawEntry) (startT endT : ℚ) : Option ℚ :=
  let processed := powerData.filterMap toSample
  if processed.isEmpty then some 0
  else sumPairs startT endT (List.insertionSort timeLE processed)

/-- A fully parseable series presented as (timestamp, power) pairs. -/
def rawSeries (tv : List (ℚ × ℚ)) : List RawEntry :=
  tv.map (fun p => ⟨some p.1, some p.2⟩)

/-- The sample a fully parseable pair turns into. -/
def sampleOfPair (p : ℚ × ℚ) : Sample := ⟨p.1, some p.2⟩

/-- Energy attributed to one in-window pair, stated from the specification:
the *later* sample's power times the interval length in hours. -/
def pairEnergy (startT endT : ℚ) (a b : ℚ × ℚ) : ℚ :=
  if startT ≤ a.1 ∧ b.1 ≤ endT then b.2 * ((b.1 - a.1) / 3600) else 0

/-- Total of the per-pair right-endpoint energies over consecutive pairs. -/
def rightEndpointSum (startT endT : ℚ) : List (ℚ × ℚ) → ℚ
  | a :: b :: rest => pairEnergy startT endT a b + rightEndpointSum startT endT (b :: rest)
  | _ => 0

/-- The trapezoidal (interval-average) integration the specification rules
out, written from its wording only so it can be compared with the code. -/
def trapezoidSum (startT endT : ℚ) : List (ℚ × ℚ) → ℚ
  | a :: b :: rest =>
      (if startT ≤ a.1 ∧ b.1 ≤ endT then ((a.2 + b.2) / 2) * ((b.1 - a.1) / 3600) else 0)
        + trapezoidSum startT endT (b :: rest)
  | _ => 0

theorem filterMap_toSample_rawSeries (tv : List (ℚ × ℚ)) :
    (rawSeries tv).filterMap toSample = tv.map sampleOfPair := by
  induction tv with
  | nil => rfl
  | cons a tl ih =>
      simp [rawSeries, toSample, sampleOfPair, List.filterMap_cons] at ih ⊢
      exact ih

theorem pairStep_sampleOfPair (s e : ℚ) (a b : ℚ × ℚ) :
    pairStep s e (sampleOfPair a) (sampleOfPair b) = some (pairEnergy s e a b) := by
  unfold pairStep pairEnergy sampleOfPair
  split <;> rfl

theorem sumPairs_map_sampleOfPair (s e : ℚ) :
    ∀ tv : List (ℚ × ℚ),
      sumPairs s e (tv.map sampleOfPair) = some (rightEndpointSum s e tv)
  | [] => rfl
  | [_] => rfl
  | a :: b :: rest => by
      have ih := sumPairs_map_sampleOfPair s e (b :: rest)
      simp only [List.map_cons] at ih ⊢
      rw [sumPairs, pairStep_sampleOfPair, ih, rightEndpointSum]

theorem sorted_map_sampleOfPair {tv : List (ℚ × ℚ)}
    (h : tv.Pairwise (fun a b => a.1 ≤ b.1)) :
    List.Sorted timeLE (tv.map sampleOfPair) := by
  rw [List.Sorted, List.pairwise_map]
  exact h.imp (fun hab => hab)

/-- Characterization of `calculate_kwh` on a sorted, fully parseable
series: it succeeds and returns the right-endpoint windowed sum. -/
theorem calculate_kwh_rawSeries (tv : List (ℚ × ℚ)) (s e : ℚ)
    (h : tv.Pairwise (fun a b => a.1 ≤ b.1)) :
    calculate_kwh (rawSeries tv) s e = some (rightEndpointSum s e tv) := by
  unfold calculate_kwh
  rw [filterMap_toSample_rawSeries]
  cases tv with
  | nil => rfl
  | cons a tl =>
      rw [if_neg (by simp)]
      rw [List.Sorted.insertionSort_eq (sorted_map_sampleOfPair h)]
      exact sumPairs_map_sampleOfPair s e (a :: tl)

theorem sumPairs_isSome (s e : ℚ) :
    ∀ ls : List Sample, (∀ x ∈ ls, x.value.isSome) → (sumPairs s e ls).isSome
  | [] , _ => rfl
  | [_], _ => rfl
  | a :: b :: rest, h => by
      have hb : b.value.isSome := h b (by simp)
      have ih := sumPairs_isSome s e (b :: rest) (fun x hx => h x (by simp [hx]))
      have hps : (pairStep s e a b).isSome := by
        unfold pairStep
        split
        · simpa using hb
        · rfl
      rw [sumPairs]
      obtain ⟨x, hx⟩ := Option.isSome_iff_exists.mp hps
      obtain ⟨r, hr⟩ := Option.isSome_iff_exists.mp ih
      rw [hx, hr]
      rfl

theorem filterMap_toSample_filter (l : List RawEntry) :
    l.filterMap toSample = (l.filter (fun x => x.time.isSome)).filterMap toSample := by
  induction l with
  | nil => rfl
  | cons a tl ih =>
      cases ht : a.time with
      | none => simp [List.filter_cons, List.filterMap_cons, toSample, ht, ih]
      | some t => simp [List.filter_cons, List.filterMap_cons, toSample, ht, ih]

theorem toSample_some {x : RawEntry} {s : Sample} (h : toSample x = some s) :
    x.time = some s.time ∧ s.value = x.value := by
  unfold toSample at h
  cases ht : x.time with
  | none => rw [ht] at h; exact absurd h (by simp)
  | some t =>
      rw [ht, Option.map_some'] at h
      obtain rfl := Option.some.inj h
      exact ⟨rfl, rfl⟩

/-! ### Claims C2, C6, C7, C9 -/

/-- C2: on every sorted, fully parseable power series the integration total
is the sum, over consecutive pairs that integrate counts, of the *later*
sample's power multiplied by the pair's time difference in hours
(right-endpoint rule); on the concrete two-sample series
`(t=0, 0 kW), (t=1800 s, 2 kW)` this gives `1 kWh`, not the `0.5 kWh` of
trapezoidal (interval-average) integration. -/
theorem integrate_right_endpoint :
    (∀ (tv : List (ℚ × ℚ)) (s e : ℚ), tv.Pairwise (fun a b => a.1 ≤ b.1) →
      calculate_kwh (rawSeries tv) s e = some (rightEndpointSum s e tv)) ∧
    (∀ (s e : ℚ) (a b : ℚ × ℚ), s ≤ a.1 → b.1 ≤ e →
      pairEnergy s e a b = b.2 * ((b.1 - a.1) / 3600)) ∧
    (calculate_kwh (rawSeries [(0, 0), (1800, 2)]) 0 3600 = some 1 ∧
     trapezoidSum 0 3600 [(0, 0), (1800, 2)] = 1/2 ∧ (1 : ℚ) ≠ 1/2) := by
  refine ⟨fun tv s e h => calculate_kwh_rawSeries tv s e h,
    fun s e a b h1 h2 => by unfold pairEnergy; rw [if_pos ⟨h1, h2⟩],
    ?_, ?_, by norm_num⟩
  · rw [calculate_kwh_rawSeries _ _ _ (by norm_num)]
    norm_num [rightEndpointSum, pairEnergy]
  · norm_num [trapezoidSum]

/-- Witness for C2: the right-endpoint characterization applied to the
concrete sorted series `(0 s, 0 kW), (1800 s, 2 kW)`. -/
theorem integrate_right_endpoint_witness :
    calculate_kwh (rawSeries [(0, 0), (1800, 2)]) 0 3600 =
      some (rightEndpointSum 0 3600 [(0, 0), (1800, 2)]) :=
  integrate_right_endpoint.1 [(0, 0), (1800, 2)] 0 3600 (by norm_num)

/-- C6: with the window start the caller passes being `window_start - grace`
(grace `0` or `270` seconds depending on the call site), a consecutive pair
of the sorted parsed series contributes exactly when
`cur.timestamp ≥ window_start - grace` and `next.timestamp ≤ window_end`;
any pair outside that window contributes `0`, so no energy outside
`[window_start - grace, window_end]` is counted. -/
theorem integrate_window_clip (grace ws we : ℚ) (_hg : grace = 0 ∨ grace = 270)
    (tv : List (ℚ × ℚ)) (h : tv.Pairwise (fun a b => a.1 ≤ b.1)) :
    calculate_kwh (rawSeries tv) (ws - grace) we =
      some (rightEndpointSum (ws - grace) we tv) ∧
    (∀ a b : ℚ × ℚ, pairEnergy (ws - grace) we a b ≠ 0 →
      ws - grace ≤ a.1 ∧ b.1 ≤ we) ∧
    (∀ a b : ℚ × ℚ, ¬(ws - grace ≤ a.1 ∧ b.1 ≤ we) →
      pairEnergy (ws - grace) we a b = 0) := by
  refine ⟨calculate_kwh_rawSeries tv _ _ h, fun a b hne => ?_, fun a b hc => by
    unfold pairEnergy; rw [if_neg hc]⟩
  by_contra hc
  exact hne (by unfold pairEnergy; rw [if_neg hc])

/-- Witness for C6: zero-grace call site on a two-sample series whose
second pair end would exceed the window. -/
theorem integrate_window_clip_witness :
    calculate_kwh (rawSeries [(0, 1), (3600, 2)]) (0 - 0) 7200 =
      some (rightEndpointSum (0 - 0) 7200 [(0, 1), (3600, 2)]) :=
  (integrate_window_clip 0 0 7200 (Or.inl rfl) [(0, 1), (3600, 2)] (by norm_num)).1

/-- C7 (amended): entries whose timestamp does not parse are dropped and
integration continues over the rest; if nothing parses the result is `0.0`;
and the whole computation succeeds provided every entry whose timestamp
parses carries a well-formed value field.  (A malformed *value* field on a
parsed-timestamp entry can still abort integration, see the
counterexample.) -/
theorem integrate_drops_unparseable (l : List RawEntry) (s e : ℚ) :
    calculate_kwh l s e = calculate_kwh (l.filter (fun x => x.time.isSome)) s e ∧
    ((∀ x ∈ l, x.time.isSome → x.value.isSome) → (calculate_kwh l s e).isSome) ∧
    ((∀ x ∈ l, x.time = none) → calculate_kwh l s e = some 0) := by
  refine ⟨?_, fun hval => ?_, fun hnone => ?_⟩
  · unfold calculate_kwh
    rw [← filterMap_toSample_filter]
  · unfold calculate_kwh
    by_cases hemp : (l.filterMap toSample).isEmpty
    · rw [if_pos hemp]; rfl
    · rw [if_neg hemp]
      apply sumPairs_isSome
      intro x hx
      rw [List.mem_insertionSort] at hx
      obtain ⟨raw, hraw, hts⟩ := List.mem_filterMap.mp hx
      obtain ⟨hrt, hrv⟩ := toSample_some hts
      rw [hrv]
      exact hval raw hraw (by rw [hrt]; rfl)
  · have hnil : l.filterMap toSample = [] :=
      List.filterMap_eq_nil_iff.mpr
        (fun a ha => by unfold toSample; rw [hnone a ha]; rfl)
    unfold calculate_kwh
    rw [hnil]
    rfl

/-- Witness for C7: a series with one unparseable-timestamp entry still
integrates successfully. -/
theorem integrate_drops_unparseable_witness :
    (calculate_kwh [⟨some 0, some 1⟩, ⟨none, some 5⟩] 0 7200).isSome :=
  (integrate_drops_unparseable [⟨some 0, some 1⟩, ⟨none, some 5⟩] 0 7200).2.1
    (by intro x hx; simp at hx; rcases hx with h | h <;> subst h <;> simp)

/-- Counterexample to C7 as stated: an entry whose timestamp parses but
whose value field is malformed is *not* dropped; when it is the later
element of a counted pair, the `float` conversion aborts the whole
integration (the `ValueError` of `float(next_point['value'])` on line 153
is outside the `try` of the parse loop). -/
theorem integrate_malformed_value_fatal :
    calculate_kwh [⟨some 0, some 1⟩, ⟨some 3600, none⟩] 0 7200 = none := by
  norm_num [calculate_kwh, toSample, List.filterMap_cons, List.insertionSort,
    List.orderedInsert, timeLE, sumPairs, pairStep]

theorem sorted_lt_insertionSort (tv : List (ℚ × ℚ))
    (hnd : (tv.map Prod.fst).Nodup) :
    List.Sorted (fun a b : Sample => a.time < b.time)
      (List.insertionSort timeLE (tv.map sampleOfPair)) := by
  haveI : IsTotal Sample timeLE := ⟨fun a b => le_total a.time b.time⟩
  haveI : IsTrans Sample timeLE := ⟨fun _ _ _ hab hbc => le_trans hab hbc⟩
  have hle : List.Sorted timeLE (List.insertionSort timeLE (tv.map sampleOfPair)) :=
    List.sorted_insertionSort timeLE _
  have hperm : (List.insertionSort timeLE (tv.map sampleOfPair)).Perm
      (tv.map sampleOfPair) := List.perm_insertionSort timeLE _
  have hnd0 : ((tv.map sampleOfPair).map Sample.time).Nodup := by
    rw [List.map_map]
    simpa [Function.comp_def, sampleOfPair] using hnd
  have hnd1 : ((List.insertionSort timeLE (tv.map sampleOfPair)).map Sample.time).Nodup :=
    ((hperm.map Sample.time).nodup_iff).mpr hnd0
  have hne : (List.insertionSort timeLE (tv.map sampleOfPair)).Pairwise
      (fun a b => a.time ≠ b.time) := List.pairwise_map.mp hnd1
  exact (hle.and hne).imp (fun hab => lt_of_le_of_ne hab.1 hab.2)

/-- C9 (amended): on fully parseable series whose timestamps are pairwise
distinct, the integration total is invariant under any permutation of the
input, because the pre-sort normalizes the order.  (With duplicated
timestamps the stable sort preserves the input order of the tied samples
and the total can change, see the counterexample.) -/
theorem integrate_perm_invariant (tv1 tv2 : List (ℚ × ℚ)) (s e : ℚ)
    (hperm : tv1.Perm tv2) (hnd : (tv1.map Prod.fst).Nodup) :
    calculate_kwh (rawSeries tv1) s e = calculate_kwh (rawSeries tv2) s e := by
  haveI : IsAntisymm Sample (fun a b => a.time < b.time) :=
    ⟨fun _ _ h h' => absurd (h.trans h') (lt_irrefl _)⟩
  have hnd2 : (tv2.map Prod.fst).Nodup := ((hperm.map Prod.fst).nodup_iff).mp hnd
  have hmp : (tv1.map sampleOfPair).Perm (tv2.map sampleOfPair) := hperm.map _
  unfold calculate_kwh
  rw [filterMap_toSample_rawSeries, filterMap_toSample_rawSeries]
  by_cases hemp : (tv1.map sampleOfPair).isEmpty
  · have hemp2 : (tv2.map sampleOfPair).isEmpty := by
      rw [List.isEmpty_iff] at hemp ⊢
      exact (hmp.symm.trans (hemp ▸ List.Perm.refl _)).eq_nil
    rw [if_pos hemp, if_pos hemp2]
  · have hemp2 : ¬(tv2.map sampleOfPair).isEmpty := fun hc => by
      rw [List.isEmpty_iff] at hc hemp
      exact hemp ((hmp.trans (hc ▸ List.Perm.refl _)).eq_nil)
    rw [if_neg hemp, if_neg hemp2]
    congr 1
    exact List.eq_of_perm_of_sorted
      ((List.perm_insertionSort timeLE _).trans
        (hmp.trans (List.perm_insertionSort timeLE _).symm))
      (sorted_lt_insertionSort tv1 hnd) (sorted_lt_insertionSort tv2 hnd2)

/-- Witness for C9 (amended): a two-sample series with distinct timestamps
integrates to the same total after swapping its elements. -/
theorem integrate_perm_invariant_witness :
    calculate_kwh (rawSeries [(0, 5), (3600, 1)]) 0 7200 =
      calculate_kwh (rawSeries [(3600, 1), (0, 5)]) 0 7200 :=
  integrate_perm_invariant [(0, 5), (3600, 1)] [(3600, 1), (0, 5)] 0 7200
    (List.Perm.swap _ _ _) (by norm_num)

/-- Counterexample to C9 as stated: two fully parseable series that are
permutations of each other (they share a duplicated timestamp `3600` with
different power values) integrate to different totals, `1 kWh` versus
`2 kWh`, because the stable sort keeps the tied samples in input order and
the right-endpoint rule reads the first of them for the whole first
interval. -/
theorem integrate_perm_counterexample :
    ([((0 : ℚ), (5 : ℚ)), (3600, 1), (3600, 2)] : List (ℚ × ℚ)).Perm
        [(0, 5), (3600, 2), (3600, 1)] ∧
    calculate_kwh (rawSeries [(0, 5), (3600, 1), (3600, 2)]) 0 7200 = some 1 ∧
    calculate_kwh (rawSeries [(0, 5), (3600, 2), (3600, 1)]) 0 7200 = some 2 := by
  refine ⟨List.Perm.cons _ (List.Perm.swap _ _ _), ?_, ?_⟩ <;>
    norm_num [calculate_kwh, rawSeries, toSample, List.filterMap_cons,
      List.insertionSort, List.orderedInsert, timeLE, sumPairs, pairStep]

/-! ### PriceWindowSelector (`get_charge_start_hour_from_rce`, src/app.py lines 243-284)

The function fetches the day-ahead price list, takes `min`/`max` of
`rce_pln` over it (a `ValueError` on an empty list), computes the
threshold with a division by the highest price (a `ZeroDivisionError`
when that price is `0`), then scans for the first entry priced strictly
below the threshold, converting its UTC period start to a local hour.  If
no entry qualifies the loop never binds `start_datetime_local` and the
final `return` raises `UnboundLocalError`.  Each uncaught exception is
modelled as a distinct error value; the timezone conversion is a
parameter `localHourOfUtc`. -/

/-- One element of the RCE price list: the UTC period start (minutes after
midnight) and the `rce_pln` price. -/
structure PriceEntry where
  periodStartUtc : ℚ
  price : ℚ
deriving DecidableEq

/-- Failure modes of the charge-hour selection, one per uncaught exception
of the source. -/
inductive RceError where
  | noPriceData
  | divByZero
  | noQualifyingPeriod
deriving DecidableEq

/-- Price of `min(data, key=lambda x: x['rce_pln'])` on a non-empty list
(`0` is a dummy for the empty list, on which the source raises before use). -/
def lowestPrice : List PriceEntry → ℚ
  | [] => 0
  | x :: rest => (rest.map PriceEntry.price).foldl min x.price

/-- Price of `max(data, key=lambda x: x['rce_pln'])`, same conventions. -/
def highestPrice : List PriceEntry → ℚ
  | [] => 0
  | x :: rest => (rest.map PriceEntry.price).foldl max x.price

/-- Threshold computation of lines 260-261:
`(lowest - highest) / highest * 0.9 * highest + highest`, failing (as the
source's division does) when the highest price is zero. -/
def thresholdRce (lowest highest : ℚ) : Option ℚ :=
  if highest = 0 then none
  else some ((lowest - highest) / highest * (9/10) * highest + highest)

/-- The selection logic of `get_charge_start_hour_from_rce`, with the
timezone conversion of the qualifying entry's UTC period start abstracted
into `localHourOfUtc`. -/
def get_charge_start_hour_from_rce (localHourOfUtc : ℚ → ℤ)
    (entries : List PriceEntry) : Except RceError ℤ :=
  if entries.isEmpty then .error .noPriceData
  else
    match thresholdRce (lowestPrice entries) (highestPrice entries) with
    | none => .error .divByZero
    | some thr =>
      match entries.find? (fun x => decide (x.price < thr)) with
      | some x => .ok (localHourOfUtc x.periodStartUtc)
      | none => .error .noQualifyingPeriod

theorem thresholdRce_eq {lowest highest : ℚ} (h : highest ≠ 0) :
    thresholdRce lowest highest = some (highest - 9/10 * (highest - lowest)) := by
  unfold thresholdRce
  rw [if_neg h]
  congr 1
  field_simp
  ring

/-! ### Claims C4, C5 -/

/-- C4 (amended): for every price series whose highest price is nonzero,
the threshold computed by the selector equals
`highest - 0.9 * (highest - lowest)`; when the highest price is zero the
computation fails with a division by zero instead of succeeding. -/
theorem threshold_value (ps : List PriceEntry) (h : highestPrice ps ≠ 0) :
    thresholdRce (lowestPrice ps) (highestPrice ps) =
      some (highestPrice ps - 9/10 * (highestPrice ps - lowestPrice ps)) :=
  thresholdRce_eq h

/-- Witness for C4: the specification's example series with
`lowest = 100, highest = 500` yields the threshold `140`. -/
theorem threshold_value_witness :
    thresholdRce (lowestPrice [⟨420, 100⟩, ⟨450, 500⟩])
        (highestPrice [⟨420, 100⟩, ⟨450, 500⟩]) = some 140 := by
  rw [threshold_value [⟨420, 100⟩, ⟨450, 500⟩]
    (by norm_num [highestPrice, List.foldl])]
  norm_num [highestPrice, lowestPrice, List.foldl]

/-- Counterexample to C4 as stated: on the non-empty series with prices
`-10` and `0` the highest price is `0` and the threshold computation
fails (the source raises `ZeroDivisionError`) instead of succeeding. -/
theorem threshold_value_counterexample :
    ([⟨0, -10⟩, ⟨30, 0⟩] : List PriceEntry).length = 2 ∧
    thresholdRce (lowestPrice [⟨0, -10⟩, ⟨30, 0⟩])
        (highestPrice [⟨0, -10⟩, ⟨30, 0⟩]) = none := by
  refine ⟨rfl, ?_⟩
  norm_num [thresholdRce, lowestPrice, highestPrice, List.foldl]

/-- C5 (amended): viewed as a function into hour-or-error, the selector
fails with `NoPriceData` on an empty series; on a non-empty series whose
highest price is nonzero it returns the local hour of the UTC period start
of the chronologically first entry priced strictly below the threshold,
and fails with `NoQualifyingPeriod` when no entry is below the threshold —
never returning a default hour.  (When the highest price is zero it fails
with a division error even if a qualifying entry exists, see the
counterexample.) -/
theorem select_charge_hour_cases (f : ℚ → ℤ) :
    (get_charge_start_hour_from_rce f [] = .error .noPriceData) ∧
    (∀ (entries pre post : List PriceEntry) (x : PriceEntry),
      highestPrice entries ≠ 0 →
      entries = pre ++ x :: post →
      (∀ y ∈ pre, ¬(y.price <
        highestPrice entries - 9/10 * (highestPrice entries - lowestPrice entries))) →
      x.price < highestPrice entries - 9/10 * (highestPrice entries - lowestPrice entries) →
      get_charge_start_hour_from_rce f entries = .ok (f x.periodStartUtc)) ∧
    (∀ entries : List PriceEntry, entries ≠ [] → highestPrice entries ≠ 0 →
      (∀ y ∈ entries, ¬(y.price <
        highestPrice entries - 9/10 * (highestPrice entries - lowestPrice entries))) →
      get_charge_start_hour_from_rce f entries = .error .noQualifyingPeriod) := by
  refine ⟨rfl, fun entries pre post x h0 hsplit hpre hx => ?_,
    fun entries hne h0 hnone => ?_⟩
  · unfold get_charge_start_hour_from_rce
    rw [if_neg (by subst hsplit; simp), thresholdRce_eq h0]
    have hfind : entries.find?
        (fun y => decide (y.price <
          highestPrice entries - 9/10 * (highestPrice entries - lowestPrice entries)))
        = some x := by
      subst hsplit
      rw [List.find?_append, List.find?_eq_none.mpr (by simpa using hpre),
        List.find?_cons_of_pos _ (by simpa using hx), Option.none_or]
    dsimp only
    rw [hfind]
  · unfold get_charge_start_hour_from_rce
    rw [if_neg (by simp [hne]), thresholdRce_eq h0]
    dsimp only
    rw [List.find?_eq_none.mpr (by simpa using hnone)]

/-- Witness for C5 (amended): on the three-entry series with prices
`500, 100, 90` (threshold `131`) the second entry is the first to dip
below the threshold, and its period start is the one converted. -/
theorem select_charge_hour_cases_witness :
    get_charge_start_hour_from_rce (fun u => ⌊u / 60⌋)
        [⟨420, 500⟩, ⟨450, 100⟩, ⟨480, 90⟩] = .ok 7 := by
  have h := (select_charge_hour_cases (fun u => ⌊u / 60⌋)).2.1
    [⟨420, 500⟩, ⟨450, 100⟩, ⟨480, 90⟩] [⟨420, 500⟩] [⟨480, 90⟩] ⟨450, 100⟩
    (by norm_num [highestPrice, List.foldl]) rfl
    (by intro y hy; simp at hy; subst hy;
        norm_num [highestPrice, lowestPrice, List.foldl])
    (by norm_num [highestPrice, lowestPrice, List.foldl])
  rw [h]
  norm_num

/-- Counterexample to C5 as stated: on the series with prices `-10` and
`0` the first entry is strictly below the claimed threshold `-9`, yet the
selector neither returns its hour nor one of the two claimed errors — it
fails with the division error (the source's `ZeroDivisionError`). -/
theorem select_charge_hour_counterexample :
    get_charge_start_hour_from_rce (fun _ => 0) [⟨0, -10⟩, ⟨30, 0⟩] =
        .error .divByZero ∧
    (-10 : ℚ) < highestPrice [⟨0, -10⟩, ⟨30, 0⟩] -
      9/10 * (highestPrice [⟨0, -10⟩, ⟨30, 0⟩] - lowestPrice [⟨0, -10⟩, ⟨30, 0⟩]) ∧
    (⟨0, -10⟩ : PriceEntry) ∈ ([⟨0, -10⟩, ⟨30, 0⟩] : List PriceEntry) := by
  refine ⟨?_, by norm_num [highestPrice, lowestPrice, List.foldl], by simp⟩
  norm_num [get_charge_start_hour_from_rce, thresholdRce, lowestPrice,
    highestPrice, List.foldl]

/-! ### WorkModeDecisionEngine (`select_work_mode`, src/app.py lines 286-302)

The charge-start hour and forecast offset are read from the environment by
the source; they are parameters here, as are the telemetry inputs. -/

/-- The two inverter operating modes the source returns. -/
inductive WorkMode where
  | selfUse
  | feedin
deriving DecidableEq

/-- Decision function of `select_work_mode`: recovery charge first, then
the protective clamp (low state of charge or any phase voltage at or above
253 V), then the time-of-day rule against
`charge_start_hour + forecast_offset`. -/
def select_work_mode (chargeStartHour forecastOffset : ℤ) (initCharge : Bool)
    (soc : ℤ) (rvolt svolt tvolt : ℚ) (hourNow : ℤ) : WorkMode :=
  let chargeStarHour := chargeStartHour + forecastOffset
  if initCharge then .selfUse
  else if soc < 15 ∨ 253 ≤ rvolt ∨ 253 ≤ svolt ∨ 253 ≤ tvolt then .selfUse
  else if hourNow < chargeStarHour then .feedin
  else .selfUse

/-! ### Claim C3 -/

/-- C3: the work-mode rules apply in precedence order — `init_charge`
forces `SelfUse`; otherwise low state of charge or any phase voltage at or
above 253 V forces `SelfUse` (the clamp fires even when the time-of-day
rule would pick `Feedin`, as the concrete 254 V example shows); otherwise
an hour before `charge_start_hour + forecast_offset` gives `Feedin`, and
anything later gives `SelfUse`. -/
theorem select_work_mode_rules :
    (∀ (cs off soc : ℤ) (r s t : ℚ) (h : ℤ),
      select_work_mode cs off true soc r s t h = .selfUse) ∧
    (∀ (cs off soc : ℤ) (r s t : ℚ) (h : ℤ),
      soc < 15 ∨ 253 ≤ r ∨ 253 ≤ s ∨ 253 ≤ t →
      select_work_mode cs off false soc r s t h = .selfUse) ∧
    (∀ (cs off soc : ℤ) (r s t : ℚ) (h : ℤ),
      ¬(soc < 15 ∨ 253 ≤ r ∨ 253 ≤ s ∨ 253 ≤ t) → h < cs + off →
      select_work_mode cs off false soc r s t h = .feedin) ∧
    (∀ (cs off soc : ℤ) (r s t : ℚ) (h : ℤ),
      ¬(soc < 15 ∨ 253 ≤ r ∨ 253 ≤ s ∨ 253 ≤ t) → ¬(h < cs + off) →
      select_work_mode cs off false soc r s t h = .selfUse) ∧
    select_work_mode 8 0 false 50 254 230 230 6 = .selfUse := by
  refine ⟨fun cs off soc r s t h => rfl,
    fun cs off soc r s t h hc => ?_,
    fun cs off soc r s t h hc hh => ?_,
    fun cs off soc r s t h hc hh => ?_,
    by norm_num [select_work_mode]⟩
  · unfold select_work_mode
    rw [if_neg Bool.false_ne_true, if_pos hc]
  · unfold select_work_mode
    rw [if_neg Bool.false_ne_true, if_neg hc, if_pos hh]
  · unfold select_work_mode
    rw [if_neg Bool.false_ne_true, if_neg hc, if_neg hh]

/-- Witness for C3: the specification's first example,
`init_charge = true, soc = 5, voltages 230 V, hour 10, start 8, offset 0`,
yields `SelfUse`. -/
theorem select_work_mode_rules_witness :
    select_work_mode 8 0 true 5 230 230 230 10 = .selfUse :=
  select_work_mode_rules.1 8 0 5 230 230 230 10

end Foxess
